import Mathlib

/-!
Verification of the lottery-news data acquisition/verification/persistence
pipeline (princessupload/lotto-news).

The definitions below are a shallow embedding of the Python source:

- `verify_and_get_best` embeds `dual_source_updater.verify_and_get_best`
  (src/dual_source_updater.py lines 556-575);
- `checkAndInsert` and `save_draw` embed `dual_source_updater.save_draw`
  (lines 577-608), with the file load (`open`/`json.load`) abstracted as an
  `Except` parameter and the in-place `json.dump` write modelled with an
  explicit failure oracle (`failAt`) that truncates the written character
  stream, matching `open(path, "w")` truncate-then-write semantics;
- `fetch_l4l_ct_result` / `fetch_pb_ny_result` embed the number-assembly
  step of the adapters `fetch_l4l_ct` (lines 56-69) and `fetch_pb_ny`
  (lines 284-295), taking the regex/CSV extraction output as input;
- `fix_lottery_draws` embeds the cleanup pass of `fix_data.fix_lottery`
  (src/fix_data.py lines 14-76);
- `run_scheduler` / `loop_iterations` embed the control skeleton of
  `auto_scheduler.run_scheduler` (src/auto_scheduler.py lines 32-57).

Python's `sorted` / `list.sort(key=...)` (a stable ascending sort) is
modelled by the stable insertion sort `pySortBy`; Python string comparison
on ASCII date strings is modelled by `strLt` (lexicographic on code
points); `datetime.weekday()` (Monday = 0) is modelled by `pyWeekday` via
Zeller's congruence.
-/

namespace LottoNews

/-- Lexicographic comparison of character lists by code point, the semantics
of Python string `<` on the ASCII date strings used by the repo. -/
def charsLt : List Char → List Char → Bool
  | [], [] => false
  | [], _ :: _ => true
  | _ :: _, [] => false
  | a :: as, b :: bs =>
    if a.val < b.val then true
    else if b.val < a.val then false
    else charsLt as bs

/-- String comparison used on `YYYY-MM-DD` date strings. -/
def strLt (a b : String) : Bool := charsLt a.data b.data

/-- Python `datetime.weekday()` (Monday = 0 .. Sunday = 6) computed by
Zeller's congruence from a year, month, day triple. -/
def pyWeekday (y m d : Nat) : Nat :=
  let y2 := if m ≤ 2 then y - 1 else y
  let m2 := if m ≤ 2 then m + 12 else m
  let k := y2 % 100
  let j := y2 / 100
  let h := (d + (13 * (m2 + 1)) / 5 + k + k / 4 + j / 4 + 5 * j) % 7
  (h + 5) % 7

/-- Split a character list on a separator character. -/
def splitOnChar (sep : Char) : List Char → List (List Char)
  | [] => [[]]
  | c :: cs =>
    let r := splitOnChar sep cs
    if c = sep then [] :: r
    else
      match r with
      | [] => [[c]]
      | g :: gs => (c :: g) :: gs

/-- Value of a decimal digit character, or `none`. -/
def digitVal (c : Char) : Option Nat :=
  if 48 ≤ c.val ∧ c.val ≤ 57 then some (c.toNat - 48) else none

/-- Parse a decimal numeral from characters. -/
def parseNatChars (cs : List Char) : Option Nat :=
  cs.foldl (fun acc c => acc.bind (fun n => (digitVal c).map (fun d => n * 10 + d))) (some 0)

/-- Parse a `YYYY-MM-DD` date string into `(year, month, day)`, as
`datetime.strptime(date, "%Y-%m-%d")` does in `fix_data.py`. -/
def parseDate (s : String) : Option (Nat × Nat × Nat) :=
  match splitOnChar '-' s.data with
  | [y, m, d] =>
    match parseNatChars y, parseNatChars m, parseNatChars d with
    | some a, some b, some c => some (a, b, c)
    | _, _, _ => none
  | _ => none

/-- Weekday (Monday = 0) of a `YYYY-MM-DD` date string. -/
def weekdayOf (s : String) : Option Nat :=
  (parseDate s).map (fun p => pyWeekday p.1 p.2.1 p.2.2)

/-- A stored draw record: `{date, main, bonus}` as persisted in the
per-lottery JSON files. -/
structure Draw where
  date : String
  main : List Nat
  bonus : Nat
deriving DecidableEq, Repr

/-- A successful adapter result: a draw candidate together with its
`source` tag, the dict built by the `fetch_*` functions of
`dual_source_updater.py`. A failed adapter attempt is `none` at use sites
(`Option SourceDraw`). -/
structure SourceDraw where
  date : String
  main : List Nat
  bonus : Nat
  source : String
deriving DecidableEq, Repr

/-- The logical content of one per-lottery store file: the `draws` list
(newest first) and the `lastUpdated` timestamp. -/
structure StoreData where
  draws : List Draw
  lastUpdated : String
deriving DecidableEq, Repr

/-- Stable insertion step of the stable ascending sort modelling Python
`sorted`/`list.sort`: an element is placed before the first element it
compares `le` to, so equal-key elements keep their original order. -/
def pyInsert (le : α → α → Bool) (a : α) : List α → List α
  | [] => [a]
  | b :: bs => if le a b then a :: b :: bs else b :: pyInsert le a bs

/-- Stable sort by a boolean comparison, the model of Python
`list.sort(key=...)`. -/
def pySortBy (le : α → α → Bool) (l : List α) : List α :=
  l.foldr (pyInsert le) []

/-- Python `sorted` on an integer list (ascending). -/
def pySorted (l : List Nat) : List Nat := pySortBy (fun a b => decide (a ≤ b)) l

/-- Source reliability ranking used in the mismatch branch of
`verify_and_get_best`: `priority = {'NY_OpenData': 1, 'CT_RSS': 2,
'Iowa': 3}` with default 99. -/
def priority (s : String) : Nat :=
  if s = "NY_OpenData" then 1 else if s = "CT_RSS" then 2 else if s = "Iowa" then 3 else 99

/-- Embedding of `dual_source_updater.verify_and_get_best` (lines 556-575):
drop failed sources, accept a single survivor, otherwise compare the first
valid candidate against each later one and on agreement return it as
VERIFIED; with no such agreement, stable-sort by `priority` and return the
first element as the MISMATCH fallback. -/
def verify_and_get_best (results : List (Option SourceDraw)) : Option SourceDraw × String :=
  match results.filterMap id with
  | [] => (none, "No sources returned data")
  | [r] => (some r, "Single source: " ++ r.source)
  | first :: second :: rest =>
    match (second :: rest).find? (fun o => first.main == o.main && first.bonus == o.bonus) with
    | some o => (some first, "VERIFIED by " ++ first.source ++ " + " ++ o.source)
    | none =>
      let best :=
        (pySortBy (fun a b => decide (priority a.source ≤ priority b.source))
          (first :: second :: rest)).headD first
      (some best, "MISMATCH - using " ++ best.source ++ " (most reliable)")

/-- The duplicate test of the `for existing in data['draws']` loop of
`save_draw` (lines 589-593): same date, or identical `(main, bonus)`. -/
def dupHit (draw : SourceDraw) (ex : Draw) : Bool :=
  ex.date == draw.date || (ex.main == draw.main && ex.bonus == draw.bonus)

/-- Rendering of a Python list of ints, for the SAVED message. -/
def renderMain (main : List Nat) : String :=
  "[" ++ String.intercalate ", " (main.map Nat.repr) ++ "]"

/-- The in-memory update step of `save_draw` (lines 589-600): scan the
existing draws for a duplicate (rejecting with the loop's first matching
reason), otherwise drop the `source` key, prepend the new draw with
`insert(0, ...)` and refresh `lastUpdated`. -/
def checkAndInsert (data : StoreData) (draw : SourceDraw) (now : String) :
    Bool × String × StoreData :=
  match data.draws.find? (dupHit draw) with
  | some ex =>
    if ex.date == draw.date then (false, "Already have " ++ draw.date, data)
    else (false, "Duplicate numbers", data)
  | none =>
    (true,
     "SAVED " ++ draw.date ++ " = " ++ renderMain draw.main ++ " + " ++ Nat.repr draw.bonus,
     ⟨⟨draw.date, draw.main, draw.bonus⟩ :: data.draws, now⟩)

/-- Serialization of one draw for the modelled store file. -/
def encodeDraw (d : Draw) : String :=
  d.date ++ "|" ++ String.intercalate "," (d.main.map Nat.repr) ++ "|" ++ Nat.repr d.bonus

/-- Serialization of the whole store, the character stream `json.dump`
writes; the exact JSON syntax is irrelevant to the claims, only that the
entire sequence is rewritten wholesale. -/
def encode (s : StoreData) : List Char :=
  (String.intercalate ";" (s.draws.map encodeDraw) ++ "#" ++ s.lastUpdated).data

/-- Result of one `save_draw` call: the returned `(saved, message)` pair
and the durable file content afterwards. -/
structure SaveOutcome where
  inserted : Bool
  reason : String
  file : List Char
deriving DecidableEq, Repr

/-- Embedding of `dual_source_updater.save_draw` (lines 577-608).
`origFile` is the durable file content before the call; `load` is the
outcome of `open`/`json.load` (an `Except.error` for a missing, unreadable
or malformed file, caught by the function's `try`/`except` which returns
`(False, "Save error: ...")`); `failAt = some k` injects an exception
after `k` characters of the in-place `open(path, "w")`/`json.dump` write,
which first truncates the file, so the durable content is then the first
`k` characters of the new serialization. -/
def save_draw (origFile : List Char) (load : Except String StoreData)
    (odraw : Option SourceDraw) (now : String) (failAt : Option Nat) : SaveOutcome :=
  match odraw with
  | none => ⟨false, "No draw to save", origFile⟩
  | some draw =>
    match load with
    | .error e => ⟨false, "Save error: " ++ e, origFile⟩
    | .ok data =>
      match checkAndInsert data draw now with
      | (true, msg, newData) =>
        match failAt with
        | none => ⟨true, msg, encode newData⟩
        | some k => ⟨false, "Save error: write interrupted", (encode newData).take k⟩
      | (false, msg, _) => ⟨false, msg, origFile⟩

/-- Number assembly of adapter `fetch_l4l_ct` (lines 56-69): the five main
regex groups, in the order the feed listed them, are sorted ascending;
the LB group is the bonus; the source tag is `CT_RSS`. -/
def fetch_l4l_ct_result (date : String) (groups : List Nat) (bonus : Nat) : SourceDraw :=
  ⟨date, pySorted groups, bonus, "CT_RSS"⟩

/-- Number assembly of adapter `fetch_pb_ny` (lines 284-295): the first
five whitespace-separated CSV numbers are sorted ascending as `main`, the
sixth is the bonus; fewer than six numbers raises `IndexError`, caught as
a failed attempt (`none`). -/
def fetch_pb_ny_result (date : String) (numbers : List Nat) : Option SourceDraw :=
  if 6 ≤ numbers.length then
    some ⟨date, pySorted (numbers.take 5), numbers.getD 5 0, "NY_OpenData"⟩
  else none

/-- Whether `fix_lottery` keeps a draw with the given weekday:
`schedule_days is None or date_obj.weekday() in schedule_days`. -/
def scheduleKeeps (schedule : Option (List Nat)) (w : Nat) : Bool :=
  match schedule with
  | none => true
  | some days => days.contains w

/-- Date-deduplication pass of `fix_lottery` (lines 49-59): keep the first
draw seen for each date. -/
def dedupeByDate : List Draw → List String → List Draw
  | [], _ => []
  | d :: ds, seen =>
    if seen.contains d.date then dedupeByDate ds seen
    else d :: dedupeByDate ds (d.date :: seen)

/-- Embedding of the draw-list transformation of `fix_data.fix_lottery`
(lines 14-76): parse every date (an unparseable date raises out of the
script, modelled as `none`), keep only draws whose weekday is allowed,
deduplicate by date, and stable-sort newest first. -/
def fix_lottery_draws (draws : List Draw) (schedule : Option (List Nat)) :
    Option (List Draw) :=
  match draws.mapM (fun d => (weekdayOf d.date).map (fun w => (d, w))) with
  | none => none
  | some tagged =>
    let valid := (tagged.filter (fun p => scheduleKeeps schedule p.2)).map Prod.fst
    let unique := dedupeByDate valid []
    some (pySortBy (fun a b => !(strLt a.date b.date)) unique)

/-- Valid weekdays for Lotto America and Powerball in the repo
(`fix_lottery('la.json', [0, 2, 5])`): Monday, Wednesday, Saturday. -/
def laDays : List Nat := [0, 2, 5]

/-- Outcome of one loop iteration of `run_scheduler`: the body ran
normally, raised an exception of class `Exception`, or was hit by
`KeyboardInterrupt` (the explicit interrupt). -/
inductive CycleOutcome
  | ok
  | exn
  | interrupt
deriving DecidableEq, Repr

/-- Observable actions of the scheduler process. -/
inductive SchedAction
  | runCycle
  | sleepInterval
  | logError
  | sleepCooldown
  | stop
deriving DecidableEq, Repr

/-- The `while True` loop of `run_scheduler` (lines 47-57), driven by the
outcome of each iteration's `time.sleep(1800); update_all()` body: a normal
iteration sleeps then runs a cycle; an `Exception` is caught, logged and
followed by `time.sleep(60)`; `KeyboardInterrupt` breaks the loop.
Returns the action trace and whether the loop terminated. -/
def loop_iterations : List CycleOutcome → List SchedAction × Bool
  | [] => ([], false)
  | CycleOutcome.ok :: rest =>
    let r := loop_iterations rest
    (SchedAction.sleepInterval :: SchedAction.runCycle :: r.1, r.2)
  | CycleOutcome.exn :: rest =>
    let r := loop_iterations rest
    (SchedAction.sleepInterval :: SchedAction.runCycle :: SchedAction.logError ::
      SchedAction.sleepCooldown :: r.1, r.2)
  | CycleOutcome.interrupt :: _ =>
    ([SchedAction.sleepInterval, SchedAction.stop], true)

/-- Embedding of `auto_scheduler.run_scheduler` (lines 32-57): one cycle
runs immediately on startup, then the wait loop processes iteration
outcomes. -/
def run_scheduler (outcomes : List CycleOutcome) : List SchedAction × Bool :=
  let r := loop_iterations outcomes
  (SchedAction.runCycle :: r.1, r.2)

/-- Strictly newest-first ordering of a stored draw list: every later
entry has a strictly smaller date string. -/
def newestFirst (l : List Draw) : Prop :=
  l.Pairwise (fun a b => strLt b.date a.date = true)

instance (l : List Draw) : Decidable (newestFirst l) := by
  unfold newestFirst
  infer_instance

theorem pyInsert_perm (le : α → α → Bool) (a : α) (l : List α) :
    List.Perm (pyInsert le a l) (a :: l) := by
  induction l with
  | nil => simp [pyInsert]
  | cons b bs ih =>
    simp only [pyInsert]
    split
    · exact List.Perm.refl _
    · exact (ih.cons b).trans (List.Perm.swap a b bs)

theorem pySortBy_perm (le : α → α → Bool) (l : List α) : List.Perm (pySortBy le l) l := by
  induction l with
  | nil => simp [pySortBy]
  | cons a as ih =>
    simp only [pySortBy, List.foldr_cons]
    exact (pyInsert_perm le a _).trans (ih.cons a)

theorem mem_pyInsert (le : α → α → Bool) (a x : α) (l : List α) :
    x ∈ pyInsert le a l ↔ x = a ∨ x ∈ l := by
  simpa using (pyInsert_perm le a l).mem_iff (a := x)

theorem pyInsert_sorted (le : α → α → Bool)
    (htrans : ∀ a b c, le a b = true → le b c = true → le a c = true)
    (htotal : ∀ a b, le a b = true ∨ le b a = true) (a : α) (l : List α)
    (h : l.Pairwise (fun x y => le x y = true)) :
    (pyInsert le a l).Pairwise (fun x y => le x y = true) := by
  induction l with
  | nil => simp [pyInsert]
  | cons b bs ih =>
    rcases h with _ | ⟨hb, hbs⟩
    simp only [pyInsert]
    split
    case isTrue hab =>
      refine List.Pairwise.cons ?_ (List.Pairwise.cons hb hbs)
      intro x hx
      rcases List.mem_cons.mp hx with rfl | hx
      · exact hab
      · exact htrans a b x hab (hb x hx)
    case isFalse hab =>
      refine List.Pairwise.cons ?_ (ih hbs)
      intro x hx
      rcases (mem_pyInsert le a x bs).mp hx with rfl | hx
      · rcases htotal x b with h1 | h2
        · exact absurd h1 hab
        · exact h2
      · exact hb x hx

theorem pySortBy_sorted (le : α → α → Bool)
    (htrans : ∀ a b c, le a b = true → le b c = true → le a c = true)
    (htotal : ∀ a b, le a b = true ∨ le b a = true) (l : List α) :
    (pySortBy le l).Pairwise (fun x y => le x y = true) := by
  induction l with
  | nil => simp [pySortBy]
  | cons a as ih =>
    simp only [pySortBy, List.foldr_cons]
    exact pyInsert_sorted le htrans htotal a _ ih

theorem pySortBy_pair (le : α → α → Bool) (a b : α) :
    pySortBy le [a, b] = if le a b then [a, b] else [b, a] := by
  simp [pySortBy, pyInsert]

theorem pySortBy_headD_min (le : α → α → Bool)
    (htrans : ∀ a b c, le a b = true → le b c = true → le a c = true)
    (htotal : ∀ a b, le a b = true ∨ le b a = true) (a0 : α) (l : List α)
    (hne : l ≠ []) :
    (pySortBy le l).headD a0 ∈ l ∧ ∀ d ∈ l, le ((pySortBy le l).headD a0) d = true := by
  cases hs : pySortBy le l with
  | nil =>
    have := (pySortBy_perm le l).length_eq
    rw [hs] at this
    cases l with
    | nil => exact absurd rfl hne
    | cons x xs => simp at this
  | cons c tl =>
    have hmemc : c ∈ l := by
      have : c ∈ pySortBy le l := by rw [hs]; exact List.mem_cons_self c tl
      exact (pySortBy_perm le l).mem_iff.mp this
    have hsorted := pySortBy_sorted le htrans htotal l
    rw [hs] at hsorted
    rcases hsorted with _ | ⟨hc, _⟩
    refine ⟨by simpa [hs] using hmemc, ?_⟩
    intro d hd
    have hd2 : d ∈ c :: tl := by
      rw [← hs]
      exact (pySortBy_perm le l).symm.mem_iff.mp hd
    rcases List.mem_cons.mp hd2 with rfl | hd3
    · rcases htotal d d with h1 | h1 <;> simpa [hs] using h1
    · simpa [hs] using hc d hd3

theorem pySorted_sorted (l : List Nat) : (pySorted l).Pairwise (fun a b : Nat => a ≤ b) := by
  have h := pySortBy_sorted (fun a b : Nat => decide (a ≤ b))
    (by intro a b c h1 h2; simp only [decide_eq_true_eq] at *; omega)
    (by intro a b; simp only [decide_eq_true_eq]; omega) l
  exact h.imp (fun hx => by simpa using hx)

theorem pySorted_perm_eq {l l' : List Nat} (h : List.Perm l l') : pySorted l = pySorted l' := by
  refine List.eq_of_perm_of_sorted ?_ (pySorted_sorted l) (pySorted_sorted l')
  exact (pySortBy_perm _ l).trans (h.trans (pySortBy_perm _ l').symm)

theorem charsLt_self (l : List Char) : charsLt l l = false := by
  induction l with
  | nil => rfl
  | cons a as ih => simp [charsLt, ih]

theorem strLt_ne {a b : String} (h : strLt a b = true) : a ≠ b := by
  intro heq
  rw [heq, strLt, charsLt_self] at h
  exact Bool.false_ne_true h

/-- Claim C10: when the store file is missing, unreadable or malformed
(the load step fails), `save_draw` raises no exception past its boundary:
it returns `inserted = false` with a reason beginning `Save error`, and
the durable file is untouched. -/
theorem save_draw_load_error (origFile : List Char) (e : String) (draw : SourceDraw)
    (now : String) (failAt : Option Nat) :
    save_draw origFile (Except.error e) (some draw) now failAt =
      ⟨false, "Save error: " ++ e, origFile⟩ := rfl

/-- Claim C8: the scheduler runs one cycle immediately on startup before
the wait loop; the loop terminates exactly when an explicit interrupt
occurs, never because of a failing cycle; and an iteration whose body
raises is caught, logged, followed by the cooldown sleep, and the loop
resumes with the remaining iterations. -/
theorem run_scheduler_resilient (outcomes : List CycleOutcome) :
    (run_scheduler outcomes).1.head? = some SchedAction.runCycle ∧
    ((run_scheduler outcomes).2 = true ↔ CycleOutcome.interrupt ∈ outcomes) ∧
    (∀ rest : List CycleOutcome,
      loop_iterations (CycleOutcome.exn :: rest) =
        (SchedAction.sleepInterval :: SchedAction.runCycle :: SchedAction.logError ::
          SchedAction.sleepCooldown :: (loop_iterations rest).1, (loop_iterations rest).2)) := by
  have key : ∀ os : List CycleOutcome,
      ((loop_iterations os).2 = true ↔ CycleOutcome.interrupt ∈ os) := by
    intro os
    induction os with
    | nil => simp [loop_iterations]
    | cons o rest ih =>
      cases o with
      | ok => simpa [loop_iterations] using ih
      | exn => simpa [loop_iterations] using ih
      | interrupt => simp [loop_iterations]
  exact ⟨rfl, by simpa [run_scheduler] using key outcomes, fun rest => rfl⟩

theorem checkAndInsert_twice (data : StoreData) (draw : SourceDraw) (n1 n2 : String) :
    checkAndInsert ((checkAndInsert data draw n1).2.2) draw n2 =
      (false,
       (if (checkAndInsert data draw n1).1 then "Already have " ++ draw.date
        else (checkAndInsert data draw n1).2.1),
       (checkAndInsert data draw n1).2.2) := by
  cases hfind : data.draws.find? (dupHit draw) with
  | some ex =>
    by_cases hd : (ex.date == draw.date) = true
    · simp [checkAndInsert, hfind, hd]
    · simp [checkAndInsert, hfind, hd]
  | none =>
    have hhit : dupHit draw ⟨draw.date, draw.main, draw.bonus⟩ = true := by
      simp [dupHit]
    simp [checkAndInsert, hfind, List.find?_cons_of_pos _ hhit]

/-- Claim C3: inserting the same record twice inserts it exactly once.
With the logical store that results from the first call loaded back, the
second `save_draw` call returns `inserted = false`, writes nothing, and
leaves the logical store unchanged; the first call prepends the record
exactly when it succeeds. -/
theorem save_draw_idempotent (data : StoreData) (draw : SourceDraw) (n1 n2 : String)
    (f1 : List Char) :
    (save_draw f1 (Except.ok ((checkAndInsert data draw n1).2.2)) (some draw) n2 none).inserted
      = false ∧
    (save_draw f1 (Except.ok ((checkAndInsert data draw n1).2.2)) (some draw) n2 none).file
      = f1 ∧
    (checkAndInsert ((checkAndInsert data draw n1).2.2) draw n2).2.2
      = (checkAndInsert data draw n1).2.2 ∧
    ((checkAndInsert data draw n1).2.2).draws =
      (if (checkAndInsert data draw n1).1
        then Draw.mk draw.date draw.main draw.bonus :: data.draws else data.draws) := by
  have h := checkAndInsert_twice data draw n1 n2
  refine ⟨by simp [save_draw, h], by simp [save_draw, h], by rw [h], ?_⟩
  cases hfind : data.draws.find? (dupHit draw) with
  | some ex =>
    by_cases hd : (ex.date == draw.date) = true
    · simp [checkAndInsert, hfind, hd]
    · simp [checkAndInsert, hfind, hd]
  | none => simp [checkAndInsert, hfind]

/-- Claim C2 (amended): a successful insert preserves strict newest-first
order only when the inserted draw's date is strictly newer than every
stored date (the code always prepends); under that hypothesis the store
stays strictly newest-first with pairwise distinct dates. -/
theorem insert_newest_preserves_order (data : StoreData) (draw : SourceDraw) (now : String)
    (hs : newestFirst data.draws)
    (hnew : ∀ e ∈ data.draws, strLt e.date draw.date = true) :
    newestFirst ((checkAndInsert data draw now).2.2).draws ∧
    ((checkAndInsert data draw now).2.2).draws.Pairwise (fun a b => a.date ≠ b.date) := by
  have distinct : ∀ {l : List Draw}, newestFirst l → l.Pairwise (fun a b => a.date ≠ b.date) := by
    intro l hl
    refine hl.imp ?_
    intro a b h heq
    exact strLt_ne h heq.symm
  cases hfind : data.draws.find? (dupHit draw) with
  | some ex =>
    by_cases hd : (ex.date == draw.date) = true
    · simpa [checkAndInsert, hfind, hd] using ⟨hs, distinct hs⟩
    · simpa [checkAndInsert, hfind, hd] using ⟨hs, distinct hs⟩
  | none =>
    simp only [checkAndInsert, hfind]
    constructor
    · exact List.Pairwise.cons (fun e he => hnew e he) hs
    · refine List.Pairwise.cons ?_ (distinct hs)
      intro e he
      exact fun heq => strLt_ne (hnew e he) heq.symm

/-- Claim C2 witness: a concrete newer-dated insert through
`insert_newest_preserves_order`. -/
theorem insert_newest_preserves_order_witness :
    newestFirst ((checkAndInsert ⟨[⟨"2026-01-03", [1, 2, 3, 4, 5], 6⟩], "t0"⟩
      ⟨"2026-01-05", [7, 8, 9, 10, 11], 12, "Iowa"⟩ "t1").2.2).draws ∧
    ((checkAndInsert ⟨[⟨"2026-01-03", [1, 2, 3, 4, 5], 6⟩], "t0"⟩
      ⟨"2026-01-05", [7, 8, 9, 10, 11], 12, "Iowa"⟩ "t1").2.2).draws.Pairwise
      (fun a b => a.date ≠ b.date) :=
  insert_newest_preserves_order ⟨[⟨"2026-01-03", [1, 2, 3, 4, 5], 6⟩], "t0"⟩
    ⟨"2026-01-05", [7, 8, 9, 10, 11], 12, "Iowa"⟩ "t1" (by decide) (by decide)

/-- Claim C2 counterexample: from a store holding `2024-01-10`, inserting
the older date `2024-01-05` succeeds yet the resulting store is no longer
newest-first, refuting the claim for arbitrary (older or in-between)
dates. -/
theorem insert_older_breaks_order :
    newestFirst (⟨[⟨"2024-01-10", [1, 2, 3, 4, 5], 6⟩], "t0"⟩ : StoreData).draws ∧
    (checkAndInsert ⟨[⟨"2024-01-10", [1, 2, 3, 4, 5], 6⟩], "t0"⟩
      ⟨"2024-01-05", [7, 8, 9, 10, 11], 12, "NY_OpenData"⟩ "t1").1 = true ∧
    ¬ newestFirst ((checkAndInsert ⟨[⟨"2024-01-10", [1, 2, 3, 4, 5], 6⟩], "t0"⟩
      ⟨"2024-01-05", [7, 8, 9, 10, 11], 12, "NY_OpenData"⟩ "t1").2.2).draws := by
  refine ⟨by decide, by decide, by decide⟩

/-- Claim C4: when every adapter fails, `Verify` reports no data and the
subsequent store step leaves the durable file untouched. -/
theorem verify_total_failure (results : List (Option SourceDraw))
    (h : ∀ r ∈ results, r = none) :
    verify_and_get_best results = (none, "No sources returned data") ∧
    ∀ (origFile : List Char) (load : Except String StoreData) (now : String)
      (failAt : Option Nat),
      save_draw origFile load (verify_and_get_best results).1 now failAt =
        ⟨false, "No draw to save", origFile⟩ := by
  have hnil : results.filterMap id = [] := by
    rw [List.filterMap_eq_nil_iff]
    intro a ha
    simpa using h a ha
  have h1 : verify_and_get_best results = (none, "No sources returned data") := by
    simp [verify_and_get_best, hnil]
  exact ⟨h1, fun origFile load now failAt => by rw [h1]; rfl⟩

/-- Claim C4 witness: two failed adapter attempts, then a save against an
arbitrary load outcome. -/
theorem verify_total_failure_witness :
    verify_and_get_best [none, none] = (none, "No sources returned data") ∧
    save_draw [] (Except.error "missing") (verify_and_get_best [none, none]).1 "t" none =
      ⟨false, "No draw to save", []⟩ :=
  ⟨(verify_total_failure [none, none] (by decide)).1,
   (verify_total_failure [none, none] (by decide)).2 [] (Except.error "missing") "t" none⟩

/-- Claim C7 (amended): a successful insert rewrites the store file in
place (truncate then write) and refreshes `lastUpdated`; an error during
that write makes `save_draw` return `inserted = false`, but the durable
file is then a truncated prefix of the new serialization, not the previous
content — the write is not atomic. -/
theorem save_draw_write_in_place (origFile : List Char) (data : StoreData)
    (draw : SourceDraw) (now : String) (k : Nat)
    (h : (checkAndInsert data draw now).1 = true) :
    (save_draw origFile (Except.ok data) (some draw) now none).inserted = true ∧
    (save_draw origFile (Except.ok data) (some draw) now none).file
      = encode (checkAndInsert data draw now).2.2 ∧
    ((checkAndInsert data draw now).2.2).lastUpdated = now ∧
    (save_draw origFile (Except.ok data) (some draw) now (some k)).inserted = false ∧
    (save_draw origFile (Except.ok data) (some draw) now (some k)).file
      = (encode (checkAndInsert data draw now).2.2).take k := by
  cases hfind : data.draws.find? (dupHit draw) with
  | some ex =>
    exfalso
    by_cases hd : (ex.date == draw.date) = true <;> simp [checkAndInsert, hfind, hd] at h
  | none => simp [save_draw, checkAndInsert, hfind]

/-- Claim C7 witness: a concrete successful insert and its interrupted
variant through `save_draw_write_in_place`. -/
theorem save_draw_write_in_place_witness :
    (save_draw (encode ⟨[], "t0"⟩) (Except.ok ⟨[], "t0"⟩)
      (some ⟨"2026-01-05", [1, 2, 3, 4, 5], 6, "Iowa"⟩) "t1" none).inserted = true ∧
    (save_draw (encode ⟨[], "t0"⟩) (Except.ok ⟨[], "t0"⟩)
      (some ⟨"2026-01-05", [1, 2, 3, 4, 5], 6, "Iowa"⟩) "t1" none).file
      = encode (checkAndInsert ⟨[], "t0"⟩ ⟨"2026-01-05", [1, 2, 3, 4, 5], 6, "Iowa"⟩ "t1").2.2 ∧
    ((checkAndInsert ⟨[], "t0"⟩ ⟨"2026-01-05", [1, 2, 3, 4, 5], 6, "Iowa"⟩ "t1").2.2).lastUpdated
      = "t1" ∧
    (save_draw (encode ⟨[], "t0"⟩) (Except.ok ⟨[], "t0"⟩)
      (some ⟨"2026-01-05", [1, 2, 3, 4, 5], 6, "Iowa"⟩) "t1" (some 1)).inserted = false ∧
    (save_draw (encode ⟨[], "t0"⟩) (Except.ok ⟨[], "t0"⟩)
      (some ⟨"2026-01-05", [1, 2, 3, 4, 5], 6, "Iowa"⟩) "t1" (some 1)).file
      = (encode (checkAndInsert ⟨[], "t0"⟩
          ⟨"2026-01-05", [1, 2, 3, 4, 5], 6, "Iowa"⟩ "t1").2.2).take 1 :=
  save_draw_write_in_place (encode ⟨[], "t0"⟩) ⟨[], "t0"⟩
    ⟨"2026-01-05", [1, 2, 3, 4, 5], 6, "Iowa"⟩ "t1" 1 (by decide)

/-- Claim C7 counterexample: with a write error injected after one
character, `save_draw` returns `inserted = false` but the durable file no
longer equals the pre-call content, refuting "the durable store state is
unchanged" on persistence errors. -/
theorem save_error_leaves_partial_file :
    (save_draw (encode ⟨[⟨"2024-01-10", [1, 2, 3, 4, 5], 6⟩], "t0"⟩)
      (Except.ok ⟨[⟨"2024-01-10", [1, 2, 3, 4, 5], 6⟩], "t0"⟩)
      (some ⟨"2024-01-12", [7, 8, 9, 10, 11], 12, "Iowa"⟩) "t1" (some 1)).inserted = false ∧
    (save_draw (encode ⟨[⟨"2024-01-10", [1, 2, 3, 4, 5], 6⟩], "t0"⟩)
      (Except.ok ⟨[⟨"2024-01-10", [1, 2, 3, 4, 5], 6⟩], "t0"⟩)
      (some ⟨"2024-01-12", [7, 8, 9, 10, 11], 12, "Iowa"⟩) "t1" (some 1)).file
      ≠ encode ⟨[⟨"2024-01-10", [1, 2, 3, 4, 5], 6⟩], "t0"⟩ := by
  refine ⟨by decide, by decide⟩

/-- Claim C1 (amended): agreement is detected only against the first
successful candidate. Two identical candidates are verified with both
sources named; in general, whenever the first valid candidate's
`(main, bonus)` matches a later one, `Verify` returns it as agreed with
the earliest matching candidate named. (An agreeing pair that does not
include the first valid candidate is not detected; see the
counterexample.) -/
theorem verify_agreement_first_candidate :
    (∀ c1 c2 : SourceDraw, c1.main = c2.main → c1.bonus = c2.bonus →
      verify_and_get_best [some c1, some c2] =
        (some c1, "VERIFIED by " ++ c1.source ++ " + " ++ c2.source)) ∧
    (∀ (results : List (Option SourceDraw)) (c1 c2 o : SourceDraw)
        (rest : List SourceDraw),
      results.filterMap id = c1 :: c2 :: rest →
      (c2 :: rest).find? (fun x => c1.main == x.main && c1.bonus == x.bonus) = some o →
      verify_and_get_best results =
        (some c1, "VERIFIED by " ++ c1.source ++ " + " ++ o.source)) := by
  constructor
  · intro c1 c2 h1 h2
    simp [verify_and_get_best, List.find?, h1, h2]
  · intro results c1 c2 o rest hv hfind
    simp [verify_and_get_best, hv, hfind]

/-- Claim C1 witness: two byte-identical candidates from different
sources, and the general form at a concrete three-candidate list. -/
theorem verify_agreement_first_candidate_witness :
    verify_and_get_best
      [some ⟨"d", [1, 2, 3, 4, 5], 6, "NY_OpenData"⟩,
       some ⟨"d", [1, 2, 3, 4, 5], 6, "CT_RSS"⟩] =
      (some ⟨"d", [1, 2, 3, 4, 5], 6, "NY_OpenData"⟩,
       "VERIFIED by " ++ "NY_OpenData" ++ " + " ++ "CT_RSS") ∧
    verify_and_get_best
      [none, some ⟨"d", [1, 2, 3, 4, 5], 6, "CT_RSS"⟩,
       some ⟨"d", [1, 2, 3, 4, 5], 6, "Iowa"⟩] =
      (some ⟨"d", [1, 2, 3, 4, 5], 6, "CT_RSS"⟩,
       "VERIFIED by " ++ "CT_RSS" ++ " + " ++ "Iowa") :=
  ⟨verify_agreement_first_candidate.1 ⟨"d", [1, 2, 3, 4, 5], 6, "NY_OpenData"⟩
      ⟨"d", [1, 2, 3, 4, 5], 6, "CT_RSS"⟩ rfl rfl,
   verify_agreement_first_candidate.2
      [none, some ⟨"d", [1, 2, 3, 4, 5], 6, "CT_RSS"⟩,
       some ⟨"d", [1, 2, 3, 4, 5], 6, "Iowa"⟩]
      ⟨"d", [1, 2, 3, 4, 5], 6, "CT_RSS"⟩ ⟨"d", [1, 2, 3, 4, 5], 6, "Iowa"⟩
      ⟨"d", [1, 2, 3, 4, 5], 6, "Iowa"⟩ [] (by decide) (by decide)⟩

/-- Claim C1 counterexample: three valid candidates in which the second
and third agree exactly but the first does not; the code compares only
the first candidate against the rest, so it falls through to the
MISMATCH priority fallback instead of returning the agreed value. -/
theorem verify_agreement_counterexample :
    (⟨"d", [7, 8, 9, 10, 11], 12, "CT_RSS"⟩ : SourceDraw).main =
      (⟨"d", [7, 8, 9, 10, 11], 12, "Iowa"⟩ : SourceDraw).main ∧
    (⟨"d", [7, 8, 9, 10, 11], 12, "CT_RSS"⟩ : SourceDraw).bonus =
      (⟨"d", [7, 8, 9, 10, 11], 12, "Iowa"⟩ : SourceDraw).bonus ∧
    verify_and_get_best
      [some ⟨"d", [1, 2, 3, 4, 5], 6, "NY_OpenData"⟩,
       some ⟨"d", [7, 8, 9, 10, 11], 12, "CT_RSS"⟩,
       some ⟨"d", [7, 8, 9, 10, 11], 12, "Iowa"⟩] =
      (some ⟨"d", [1, 2, 3, 4, 5], 6, "NY_OpenData"⟩,
       "MISMATCH - using NY_OpenData (most reliable)") := by
  refine ⟨rfl, rfl, by decide⟩

/-- Claim C5: when no later candidate agrees with the first (in
particular when no two candidates agree at all), the result is the
highest-priority candidate marked MISMATCH; the priority order places
NY_OpenData before CT_RSS before Iowa before every other source; and for
two differing candidates the higher-priority one is returned. -/
theorem verify_mismatch_priority (results : List (Option SourceDraw))
    (hlen : 2 ≤ (results.filterMap id).length)
    (hpw : (results.filterMap id).Pairwise
      (fun a b => ¬(a.main = b.main ∧ a.bonus = b.bonus))) :
    (∃ c, verify_and_get_best results =
        (some c, "MISMATCH - using " ++ c.source ++ " (most reliable)") ∧
      c ∈ results.filterMap id ∧
      ∀ d ∈ results.filterMap id, priority c.source ≤ priority d.source) ∧
    priority "NY_OpenData" < priority "CT_RSS" ∧
    priority "CT_RSS" < priority "Iowa" ∧
    (∀ s : String, s ≠ "NY_OpenData" → s ≠ "CT_RSS" → s ≠ "Iowa" →
      priority "Iowa" < priority s) ∧
    (∀ a b : SourceDraw, ¬(a.main = b.main ∧ a.bonus = b.bonus) →
      priority a.source ≤ priority b.source →
      verify_and_get_best [some a, some b] =
        (some a, "MISMATCH - using " ++ a.source ++ " (most reliable)")) := by
  have htr : ∀ a b c : SourceDraw,
      (fun a b : SourceDraw => decide (priority a.source ≤ priority b.source)) a b = true →
      (fun a b : SourceDraw => decide (priority a.source ≤ priority b.source)) b c = true →
      (fun a b : SourceDraw => decide (priority a.source ≤ priority b.source)) a c = true := by
    intro a b c h1 h2
    simp only [decide_eq_true_eq] at h1 h2 ⊢
    omega
  have hto : ∀ a b : SourceDraw,
      (fun a b : SourceDraw => decide (priority a.source ≤ priority b.source)) a b = true ∨
      (fun a b : SourceDraw => decide (priority a.source ≤ priority b.source)) b a = true := by
    intro a b
    simp only [decide_eq_true_eq]
    omega
  refine ⟨?_, by decide, by decide, ?_, ?_⟩
  · obtain ⟨f, t, hv0⟩ : ∃ f t, results.filterMap id = f :: t := by
      cases hx : results.filterMap id with
      | nil => rw [hx] at hlen; simp at hlen
      | cons f t => exact ⟨f, t, rfl⟩
    obtain ⟨s, r, hv1⟩ : ∃ s r, t = s :: r := by
      cases t with
      | nil => rw [hv0] at hlen; simp at hlen
      | cons s r => exact ⟨s, r, rfl⟩
    subst hv1
    have hpw2 := hpw
    rw [hv0] at hpw2
    rcases hpw2 with _ | ⟨hf, _⟩
    have hfind : (s :: r).find? (fun x => f.main == x.main && f.bonus == x.bonus) = none := by
      rw [List.find?_eq_none]
      intro x hx
      simpa [Bool.and_eq_true, beq_iff_eq] using hf x hx
    have hmin := pySortBy_headD_min
      (fun a b : SourceDraw => decide (priority a.source ≤ priority b.source))
      htr hto f (f :: s :: r) (by simp)
    refine ⟨(pySortBy
        (fun a b : SourceDraw => decide (priority a.source ≤ priority b.source))
        (f :: s :: r)).headD f, ?_, ?_, ?_⟩
    · simp [verify_and_get_best, hv0, hfind]
    · rw [hv0]
      exact hmin.1
    · intro d hd
      rw [hv0] at hd
      simpa [decide_eq_true_eq] using hmin.2 d hd
  · intro s h1 h2 h3
    simp [priority, h1, h2, h3]
  · intro a b hne hle
    have hfind : [b].find? (fun x => a.main == x.main && a.bonus == x.bonus) = none := by
      rw [List.find?_eq_none]
      intro x hx
      rcases List.mem_singleton.mp hx with rfl
      simpa [Bool.and_eq_true, beq_iff_eq] using hne
    have hpair := pySortBy_pair
      (fun a b : SourceDraw => decide (priority a.source ≤ priority b.source)) a b
    simp [verify_and_get_best, hfind, hpair, decide_eq_true hle]

/-- Claim C5 witness: two differing candidates where NY_OpenData outranks
CT_RSS, through `verify_mismatch_priority`. -/
theorem verify_mismatch_priority_witness :
    (∃ c, verify_and_get_best
        [some ⟨"d", [1, 2, 3, 4, 5], 6, "NY_OpenData"⟩,
         some ⟨"d", [7, 8, 9, 10, 11], 12, "CT_RSS"⟩] =
        (some c, "MISMATCH - using " ++ c.source ++ " (most reliable)") ∧
      c ∈ List.filterMap id
        ([some ⟨"d", [1, 2, 3, 4, 5], 6, "NY_OpenData"⟩,
          some ⟨"d", [7, 8, 9, 10, 11], 12, "CT_RSS"⟩] : List (Option SourceDraw)) ∧
      ∀ d ∈ List.filterMap id
        ([some ⟨"d", [1, 2, 3, 4, 5], 6, "NY_OpenData"⟩,
          some ⟨"d", [7, 8, 9, 10, 11], 12, "CT_RSS"⟩] : List (Option SourceDraw)),
        priority c.source ≤ priority d.source) ∧
    priority "NY_OpenData" < priority "CT_RSS" ∧
    priority "CT_RSS" < priority "Iowa" ∧
    (∀ s : String, s ≠ "NY_OpenData" → s ≠ "CT_RSS" → s ≠ "Iowa" →
      priority "Iowa" < priority s) ∧
    (∀ a b : SourceDraw, ¬(a.main = b.main ∧ a.bonus = b.bonus) →
      priority a.source ≤ priority b.source →
      verify_and_get_best [some a, some b] =
        (some a, "MISMATCH - using " ++ a.source ++ " (most reliable)")) :=
  verify_mismatch_priority
    [some ⟨"d", [1, 2, 3, 4, 5], 6, "NY_OpenData"⟩,
     some ⟨"d", [7, 8, 9, 10, 11], 12, "CT_RSS"⟩] (by decide) (by decide)

theorem tagged_weekday {draws : List Draw} {tagged : List (Draw × Nat)}
    (h : draws.mapM (fun d => (weekdayOf d.date).map (fun w => (d, w))) = some tagged) :
    ∀ p ∈ tagged, weekdayOf p.1.date = some p.2 := by
  induction draws generalizing tagged with
  | nil =>
    simp only [List.mapM_nil, pure, Option.some.injEq] at h
    subst h
    simp
  | cons d ds ih =>
    rw [List.mapM_cons] at h
    cases hw : weekdayOf d.date with
    | none => rw [hw] at h; simp at h
    | some w =>
      rw [hw] at h
      cases hm : ds.mapM (fun d => (weekdayOf d.date).map (fun w => (d, w))) with
      | none => rw [hm] at h; simp at h
      | some t2 =>
        rw [hm] at h
        have h2 : some ((d, w) :: t2) = some tagged := by simpa using h
        obtain rfl : (d, w) :: t2 = tagged := Option.some.inj h2
        intro p hp
        rcases List.mem_cons.mp hp with rfl | hp2
        · simpa using hw
        · exact ih hm p hp2

theorem mem_dedupeByDate : ∀ (l : List Draw) (seen : List String) (d : Draw),
    d ∈ dedupeByDate l seen → d ∈ l := by
  intro l
  induction l with
  | nil => intro seen d h; simp [dedupeByDate] at h
  | cons e es ih =>
    intro seen d h
    by_cases hc : seen.contains e.date = true
    · simp only [dedupeByDate, hc, if_true] at h
      exact List.mem_cons_of_mem e (ih seen d h)
    · simp only [dedupeByDate, hc, if_false] at h
      rcases List.mem_cons.mp h with rfl | h2
      · exact List.mem_cons_self d es
      · exact List.mem_cons_of_mem e (ih _ d h2)

/-- Claim C6 (amended): the live update path performs no weekday
validation — `save_draw` acceptance is decided solely by the duplicate
scan, independent of `drawWeekdays` — while weekday enforcement exists
only in the offline `fix_data` pass, which keeps exactly the draws whose
weekday lies in the schedule. -/
theorem live_path_no_weekday_gate :
    (∀ (data : StoreData) (draw : SourceDraw) (now : String),
      (checkAndInsert data draw now).1 = (data.draws.find? (dupHit draw)).isNone) ∧
    (∀ (draws : List Draw) (days : List Nat) (out : List Draw),
      fix_lottery_draws draws (some days) = some out →
      ∀ d ∈ out, ∃ w, weekdayOf d.date = some w ∧ w ∈ days) := by
  constructor
  · intro data draw now
    cases hfind : data.draws.find? (dupHit draw) with
    | some ex =>
      by_cases hd : (ex.date == draw.date) = true <;> simp [checkAndInsert, hfind, hd]
    | none => simp [checkAndInsert, hfind]
  · intro draws days out hfix d hd
    unfold fix_lottery_draws at hfix
    cases hm : draws.mapM (fun d => (weekdayOf d.date).map (fun w => (d, w))) with
    | none => rw [hm] at hfix; simp at hfix
    | some tagged =>
      rw [hm] at hfix
      simp only [Option.some.injEq] at hfix
      subst hfix
      have hd1 : d ∈ dedupeByDate
          ((tagged.filter (fun p => scheduleKeeps (some days) p.2)).map Prod.fst) [] :=
        (pySortBy_perm _ _).mem_iff.mp hd
      have hd2 := mem_dedupeByDate _ _ d hd1
      rcases List.mem_map.mp hd2 with ⟨p, hp, rfl⟩
      rcases List.mem_filter.mp hp with ⟨hpt, hkeep⟩
      refine ⟨p.2, tagged_weekday hm p hpt, ?_⟩
      simp only [scheduleKeeps] at hkeep
      exact List.elem_iff.mp hkeep

/-- Claim C6 witness: the duplicate-only acceptance test at a concrete
Sunday-dated draw, and the offline pass applied to a Sunday/Saturday pair
under the Mon/Wed/Sat schedule. -/
theorem live_path_no_weekday_gate_witness :
    (checkAndInsert ⟨[], "t0"⟩ ⟨"2026-01-04", [1, 2, 3, 4, 5], 6, "Iowa"⟩ "t1").1 =
      ((⟨[], "t0"⟩ : StoreData).draws.find?
        (dupHit ⟨"2026-01-04", [1, 2, 3, 4, 5], 6, "Iowa"⟩)).isNone ∧
    ∀ d ∈ [(⟨"2026-01-03", [7, 8, 9, 10, 11], 12⟩ : Draw)],
      ∃ w, weekdayOf d.date = some w ∧ w ∈ laDays :=
  ⟨live_path_no_weekday_gate.1 ⟨[], "t0"⟩ ⟨"2026-01-04", [1, 2, 3, 4, 5], 6, "Iowa"⟩ "t1",
   live_path_no_weekday_gate.2
     [⟨"2026-01-04", [1, 2, 3, 4, 5], 6⟩, ⟨"2026-01-03", [7, 8, 9, 10, 11], 12⟩]
     laDays [⟨"2026-01-03", [7, 8, 9, 10, 11], 12⟩] (by decide)⟩

/-- Claim C6 counterexample: `2026-01-04` is a Sunday, not one of Lotto
America's Mon/Wed/Sat draw weekdays; yet the live save path inserts it
into the store, so an invalid-weekday candidate does reach the Store. -/
theorem sunday_draw_reaches_store :
    weekdayOf "2026-01-04" = some 6 ∧
    laDays.contains 6 = false ∧
    (save_draw (encode ⟨[⟨"2026-01-03", [1, 2, 3, 4, 5], 6⟩], "t0"⟩)
      (Except.ok ⟨[⟨"2026-01-03", [1, 2, 3, 4, 5], 6⟩], "t0"⟩)
      (some ⟨"2026-01-04", [7, 8, 9, 10, 11], 12, "Iowa"⟩) "t1" none).inserted = true ∧
    (⟨"2026-01-04", [7, 8, 9, 10, 11], 12⟩ : Draw) ∈
      (checkAndInsert ⟨[⟨"2026-01-03", [1, 2, 3, 4, 5], 6⟩], "t0"⟩
        ⟨"2026-01-04", [7, 8, 9, 10, 11], 12, "Iowa"⟩ "t1").2.2.draws := by
  refine ⟨by decide, by decide, by decide, by decide⟩

/-- Claim C9: every adapter sorts the extracted main numbers ascending
before building its candidate (shown for the cited CT RSS and NY Open
Data assemblies), the built candidate is therefore independent of the
order in which the source listed the numbers, and agreement in
`verify_and_get_best` — plain equality of `(main, bonus)` — is thus
insensitive to source-side listing order. -/
theorem adapters_produce_sorted_main :
    (∀ (date : String) (groups : List Nat) (bonus : Nat),
      ((fetch_l4l_ct_result date groups bonus).main).Pairwise (fun a b : Nat => a ≤ b)) ∧
    (∀ (date : String) (numbers : List Nat) (r : SourceDraw),
      fetch_pb_ny_result date numbers = some r →
      (r.main).Pairwise (fun a b : Nat => a ≤ b)) ∧
    (∀ (date : String) (groups groups' : List Nat) (bonus : Nat),
      List.Perm groups groups' →
      fetch_l4l_ct_result date groups bonus = fetch_l4l_ct_result date groups' bonus) ∧
    (∀ c1 c2 : SourceDraw, c1.main = c2.main → c1.bonus = c2.bonus →
      verify_and_get_best [some c1, some c2] =
        (some c1, "VERIFIED by " ++ c1.source ++ " + " ++ c2.source)) := by
  refine ⟨?_, ?_, ?_, ?_⟩
  · intro date groups bonus
    simpa [fetch_l4l_ct_result] using pySorted_sorted groups
  · intro date numbers r h
    unfold fetch_pb_ny_result at h
    by_cases hn : 6 ≤ numbers.length
    · rw [if_pos hn] at h
      simp only [Option.some.injEq] at h
      subst h
      simpa using pySorted_sorted (numbers.take 5)
    · rw [if_neg hn] at h
      exact absurd h (by simp)
  · intro date g g' b hperm
    simp [fetch_l4l_ct_result, pySorted_perm_eq hperm]
  · intro c1 c2 h1 h2
    simp [verify_and_get_best, List.find?, h1, h2]

/-- Claim C9 witness: a permuted extraction yields the same sorted
candidate, and two such candidates verify as agreed. -/
theorem adapters_produce_sorted_main_witness :
    ((fetch_l4l_ct_result "d" [3, 1, 2, 5, 4] 6).main).Pairwise (fun a b : Nat => a ≤ b) ∧
    ((⟨"d", [1, 2, 3, 4, 5], 9, "NY_OpenData"⟩ : SourceDraw).main).Pairwise
      (fun a b : Nat => a ≤ b) ∧
    fetch_l4l_ct_result "d" [3, 1, 2, 5, 4] 6 = fetch_l4l_ct_result "d" [5, 4, 3, 2, 1] 6 ∧
    verify_and_get_best
      [some (fetch_l4l_ct_result "d" [3, 1, 2, 5, 4] 6),
       some ⟨"d", [1, 2, 3, 4, 5], 6, "NY_OpenData"⟩] =
      (some (fetch_l4l_ct_result "d" [3, 1, 2, 5, 4] 6),
       "VERIFIED by " ++ (fetch_l4l_ct_result "d" [3, 1, 2, 5, 4] 6).source ++ " + " ++
         "NY_OpenData") :=
  ⟨adapters_produce_sorted_main.1 "d" [3, 1, 2, 5, 4] 6,
   adapters_produce_sorted_main.2.1 "d" [5, 3, 1, 2, 4, 9, 7]
     ⟨"d", [1, 2, 3, 4, 5], 9, "NY_OpenData"⟩ (by decide),
   adapters_produce_sorted_main.2.2.1 "d" [3, 1, 2, 5, 4] [5, 4, 3, 2, 1] 6 (by decide),
   adapters_produce_sorted_main.2.2.2 (fetch_l4l_ct_result "d" [3, 1, 2, 5, 4] 6)
     ⟨"d", [1, 2, 3, 4, 5], 6, "NY_OpenData"⟩ (by decide) (by decide)⟩

end LottoNews
